import Mathlib

/-!
Verification of the bumpcalver version-computation core.

This file gives a shallow embedding of the version parsing, formatting and
batch-update logic of `src/bumpcalver/utils.py` and `src/bumpcalver/handlers.py`.
Python strings are modelled as Lean `String`/`List Char`; regular-expression
operations used by the source are translated into the equivalent structural
functions on character lists; Python `int(...)` is modelled as a partial
function returning `Option Int`; exceptions are modelled with `Except`/option
fall-through values.  External effects (file reads, the system clock) are
abstracted as explicit parameters, matching the capability interface the code
consumes.
-/

/-- `startsL p l` holds when the list `p` is an initial segment of `l`.
Models Python `str.startswith` / an anchored regex prefix. -/
def startsL : List Char → List Char → Bool
  | [], _ => true
  | _ :: _, [] => false
  | a :: as, b :: bs => a == b && startsL as bs

/-- `hasSubL n l`: the list `n` occurs contiguously inside `l`.
Models the Python `in` substring test. -/
def hasSubL (n : List Char) : List Char → Bool
  | [] => n.isEmpty
  | l@(_ :: t) => startsL n l || hasSubL n t

/-- Python `pat in s` substring containment on strings. -/
def strContains (s pat : String) : Bool := hasSubL pat.data s.data

/-- Python `s.startswith(p)`. -/
def startsWithS (s p : String) : Bool := startsL p.data s.data

/-- Python `s.split(sep)` for a one-character separator
(`"".split(".") == [""]`, empty pieces are kept). -/
def splitOnC (sep : Char) : List Char → List (List Char)
  | [] => [[]]
  | c :: rest =>
    let r := splitOnC sep rest
    if c == sep then [] :: r
    else
      match r with
      | h :: t => (c :: h) :: t
      | [] => [[c]]

/-- Decimal value of a list of ASCII digits (most significant first). -/
def digitsVal (cs : List Char) : Nat :=
  cs.foldl (fun a c => a * 10 + (c.toNat - 48)) 0

/-- Acceptor for the digit core of a Python integer literal:
one or more ASCII digits with single underscores allowed between digits. -/
def goodDigits : List Char → Bool
  | [] => false
  | [c] => c.isDigit
  | c :: '_' :: rest => c.isDigit && goodDigits rest
  | c :: rest => c.isDigit && goodDigits rest

/-- ASCII whitespace, as stripped by Python `int()`. -/
def isSpaceC (c : Char) : Bool :=
  c == ' ' || c == '\t' || c == '\n' || c == '\r'

/-- Strip leading and trailing whitespace from a character list. -/
def trimWS (l : List Char) : List Char :=
  ((l.dropWhile isSpaceC).reverse.dropWhile isSpaceC).reverse

/-- Python `int(s)` on the decimal strings this program handles: optional
surrounding whitespace, an optional single sign, then digits (with single
underscores permitted between digits).  `none` models the `ValueError`
raised by CPython on any other input. -/
def pyInt (s : String) : Option Int :=
  let cs := trimWS s.data
  match cs with
  | '+' :: rest =>
    if goodDigits rest then some (digitsVal (rest.filter (fun c => c != '_')) : Int) else none
  | '-' :: rest =>
    if goodDigits rest then some (-(digitsVal (rest.filter (fun c => c != '_')) : Int)) else none
  | _ =>
    if goodDigits cs then some (digitsVal (cs.filter (fun c => c != '_')) : Int) else none

/-- `re.sub(r'\.(alpha|beta|rc\d*)$', '', version)` from `parse_version`
(utils.py line 95): remove a trailing `.alpha`, `.beta` or `.rc<digits>`
pre-release suffix.  The pattern is anchored at the end of the string, so at
most one occurrence is removed. -/
def stripPrerelease (s : String) : String :=
  if startsL (".alpha".data.reverse) s.data.reverse then
    String.mk (s.data.take (s.data.length - 6))
  else if startsL (".beta".data.reverse) s.data.reverse then
    String.mk (s.data.take (s.data.length - 5))
  else
    let rev2 := s.data.reverse.dropWhile Char.isDigit
    if startsL ['c', 'r', '.'] rev2 then String.mk ((rev2.drop 3).reverse) else s

/-- The separator check `re.match` with pattern `^\d+[\.\-\/]` from
`parse_version` (utils.py line 103): the string begins with one or more
digits immediately followed by `.`, `-` or `/`.  Greedy matching is exact
here because a backtracked position would start with a digit, which is not
one of the separators. -/
def startsDigitsSep (cs : List Char) : Bool :=
  let ds := cs.takeWhile Char.isDigit
  let rest := cs.drop ds.length
  !ds.isEmpty &&
    (match rest with
     | c :: _ => c == '.' || c == '-' || c == '/'
     | [] => false)

/-- `re.match(r'^\d{2,4}$', s)` (utils.py line 123): the whole string is two
to four ASCII digits. -/
def isDigits24Full (cs : List Char) : Bool :=
  (decide (2 ≤ cs.length) && decide (cs.length ≤ 4)) && cs.all Char.isDigit

/-- `re.match(r'^\d{2,4}', s)` (utils.py line 133): the string starts with at
least two ASCII digits (a 2-to-4-digit prefix match succeeds exactly when two
leading digits exist). -/
def startsDigits24 (cs : List Char) : Bool :=
  decide (2 ≤ (cs.takeWhile Char.isDigit).length)

/-- The anchored part of the legacy pattern
`re.match(r"^(\d{4}-\d{2}-\d{2})(?:-(\d+))?", version)` (utils.py line 145):
when the first ten characters have the shape `\d{4}-\d{2}-\d{2}`, return
those ten characters and the remainder of the string. -/
def legacyDecomp : List Char → Option (List Char × List Char)
  | y1 :: y2 :: y3 :: y4 :: '-' :: m1 :: m2 :: '-' :: d1 :: d2 :: rest =>
    if y1.isDigit && y2.isDigit && y3.isDigit && y4.isDigit &&
       m1.isDigit && m2.isDigit && d1.isDigit && d2.isDigit then
      some ([y1, y2, y3, y4, '-', m1, m2, '-', d1, d2], rest)
    else none
  | _ => none

/-- The legacy parse (utils.py lines 145-150): match the date prefix, then an
optional `-<digits>` group (`count_str = match.group(2) or "0"`).  `re.match`
anchors only at the start, so trailing text after the match is ignored. -/
def legacyParseL (l : List Char) : Option (String × Int) :=
  match legacyDecomp l with
  | none => none
  | some (date, rest) =>
    match rest with
    | '-' :: r =>
      let ds := r.takeWhile Char.isDigit
      if ds.isEmpty then some (String.mk date, 0)
      else some (String.mk date, (digitsVal ds : Int))
    | _ => some (String.mk date, 0)

/-- Whether the legacy regex matches `s` at all (its optional group cannot
fail, so a match is exactly a valid ten-character date prefix). -/
def hasLegacyPrefix (s : String) : Bool := (legacyDecomp s.data).isSome

/-- Python truthiness of the optional `version_format` / `date_format`
arguments: `None` and the empty string are falsy. -/
def truthy : Option String → Bool
  | none => false
  | some s => s != ""

/-- The dynamic-parsing block of `parse_version` (utils.py lines 97-139),
applied to the suffix-stripped version `clean` and the format `vf`.
The result is three-valued, mirroring the control flow of the source:
`some (some r)` is a `return date, count`, `some none` is a `return None`,
and `none` means the block falls through to the legacy parse - either
because no branch returned, or because `int(count_str)` raised and the
surrounding `except Exception` caught it. -/
def dynamicParse (clean vf : String) : Option (Option (String × Int)) :=
  if strContains vf "\x7bcurrent_date\x7d" = false then none
  else if strContains vf "\x7bbuild_count" = false then
    some (if startsDigitsSep clean.data then some (clean, 0) else none)
  else if strContains vf "." = false then none
  else
    let parts := splitOnC '.' vf.data
    let vp := splitOnC '.' clean.data
    if vp.length < parts.length then none
    else
      match vp with
      | a :: b :: c :: _ =>
        if isDigits24Full a then
          match pyInt (String.mk c) with
          | some n => some (some (String.mk a ++ "." ++ String.mk b, n))
          | none => none
        else some none
      | [a, b] =>
        if startsDigits24 a then
          match pyInt (String.mk b) with
          | some n => some (some (String.mk a, n))
          | none => none
        else some none
      | _ => none

/-- `parse_version` (utils.py lines 67-157).  When both format arguments are
truthy: reject `v`/`release` prefixes, strip pre-release suffixes, run the
dynamic parse and fall through to the legacy pattern when it neither returns
a pair nor returns `None`.  Otherwise parse with the legacy pattern only. -/
def parse_version (version : String) (version_format date_format : Option String) :
    Option (String × Int) :=
  if truthy version_format && truthy date_format then
    if startsWithS version "v" || startsWithS version "release" then none
    else
      match dynamicParse (stripPrerelease version) (version_format.getD "") with
      | some r => r
      | none => legacyParseL version.data
  else legacyParseL version.data

/-- Python `\w` word characters over the ASCII range (letters, digits,
underscore), used to decide the `\b` word boundaries of the zero-stripping
regex in `format_pep440_version`. -/
def isWordChar (c : Char) : Bool := c.isAlphanum || c == '_'

/-- The two `str.replace` calls of `format_pep440_version` (handlers.py
line 258): hyphens and underscores become dots. -/
def pep440Replace (c : Char) : Char := if c = '-' ∨ c = '_' then '.' else c

/-- `re.sub(r"\b0+(\d)", r"\1", version)` (handlers.py line 260): at each
word boundary, collapse a run of zeros followed by a digit into that digit.
The scan carries two flags: `prevWord` (was the previous character a word
character, i.e. is there no boundary here) and `inRun` (are we inside a
zero run that began at a boundary).  The length of the run never affects
the output: a run followed by a digit is replaced by that digit, and a run
followed by a non-digit or the end of the string leaves a single zero
(for a length-1 run because the pattern needs a digit after the zeros and
fails, for longer runs because the final zero is the captured digit). -/
def stripZeros (prevWord inRun : Bool) : List Char → List Char
  | [] => if inRun then ['0'] else []
  | c :: rest =>
    if inRun then
      if c = '0' then stripZeros true true rest
      else if c.isDigit then c :: stripZeros true false rest
      else '0' :: c :: stripZeros (isWordChar c) false rest
    else if prevWord = false ∧ c = '0' then stripZeros true true rest
    else c :: stripZeros (isWordChar c) false rest

/-- `VersionHandler.format_pep440_version` (handlers.py lines 245-261):
replace `-` and `_` with `.`, then strip boundary-anchored leading zeros. -/
def format_pep440_version (version : String) : String :=
  String.mk (stripZeros false false (version.data.map pep440Replace))

/-- `VersionHandler.format_version` (handlers.py lines 231-243): apply the
PEP440-style normalization for the `"python"` standard, pass every other
standard through unchanged. -/
def format_version (version standard : String) : String :=
  if standard = "python" then format_pep440_version version else version

/-- Zero padding of a rendered integer for a `:0N` format spec, sign-aware
as in Python (`format(-1, "03") == "-01"`). -/
def padZeros (w : Nat) (s : String) : String :=
  match s.data with
  | '-' :: rest =>
    if rest.length + 1 < w then
      "-" ++ String.mk (List.replicate (w - 1 - rest.length) '0') ++ String.mk rest
    else s
  | l => if l.length < w then String.mk (List.replicate (w - l.length) '0') ++ s else s

/-- Apply a `str.format` spec to the build count.  The templates this
program accepts use either no spec or a zero-pad spec such as `03`; any
other spec is rendered as the plain decimal. -/
def applySpec (spec : String) (bc : Int) : String :=
  match spec.data with
  | '0' :: rest =>
    if !rest.isEmpty && rest.all Char.isDigit then padZeros (digitsVal rest) (toString bc)
    else toString bc
  | _ => toString bc

/-- Render one replacement field of the version template: the text between
braces, split on `:` into field name and format spec.  The two fields the
program substitutes are `current_date` and `build_count`
(`version_format.format(current_date=..., build_count=...)`, utils.py
line 257); an unrecognized field is left in place. -/
def renderField (cd : String) (bc : Int) (field : List Char) : List Char :=
  match splitOnC ':' field with
  | [name] =>
    if name = "current_date".data then cd.data
    else if name = "build_count".data then (toString bc).data
    else '{' :: field ++ ['}']
  | [name, spec] =>
    if name = "current_date".data then cd.data
    else if name = "build_count".data then (applySpec (String.mk spec) bc).data
    else '{' :: field ++ ['}']
  | _ => '{' :: field ++ ['}']

/-- Scanner for Python `str.format` on well-formed version templates.  The
first argument accumulates the current replacement field (`none` outside
braces); doubled braces denote literal braces. -/
def pyFormatGo (cd : String) (bc : Int) : Option (List Char) → List Char → List Char
  | _, [] => []
  | some acc, c :: rest =>
    if c = '}' then renderField cd bc acc.reverse ++ pyFormatGo cd bc none rest
    else pyFormatGo cd bc (some (c :: acc)) rest
  | none, '{' :: '{' :: rest => '{' :: pyFormatGo cd bc none rest
  | none, '}' :: '}' :: rest => '}' :: pyFormatGo cd bc none rest
  | none, '{' :: rest => pyFormatGo cd bc (some []) rest
  | none, c :: rest => c :: pyFormatGo cd bc none rest

/-- `version_format.format(current_date=current_date, build_count=build_count)`
(utils.py line 257). -/
def pyFormat (template cd : String) (bc : Int) : String :=
  String.mk (pyFormatGo cd bc none template.data)

/-- `get_build_version` (utils.py lines 188-257) with its two external
effects made explicit: `readResult` stands for the handler lookup plus
`handler.read_version(...)` call inside the `try` block (`.error` models a
raised exception, `.ok none` a read that found no version), and
`current_date` stands for `get_current_datetime_version(timezone,
date_format)`, the clock read.  The build count defaults to 1 and becomes
`last_count + 1` only when the parsed date equals the current date; the
result is the rendered template. -/
def get_build_version (readResult : Except String (Option String))
    (version_format current_date date_format : String) : String :=
  let build_count : Int :=
    match readResult with
    | .error _ => 1
    | .ok none => 1
    | .ok (some version) =>
      match parse_version version (some version_format) (some date_format) with
      | some (last_date, last_count) =>
        if last_date = current_date then last_count + 1 else 1
      | none => 1
  pyFormat version_format current_date build_count

/-- The ten concrete handler classes of handlers.py, as selected by
`get_version_handler`. -/
inductive VersionHandlerKind
  | python | toml | yaml | json | xml | dockerfile | makefile | properties | env | setupCfg
deriving DecidableEq

/-- The ten file-type tags accepted by `get_version_handler`. -/
def supported_file_types : List String :=
  ["python", "toml", "yaml", "json", "xml", "dockerfile", "makefile",
   "properties", "env", "setup.cfg"]

/-- `get_version_handler` (handlers.py lines 1137-1176): dispatch on the
file-type tag; `.error` models the `ValueError` raised for an unsupported
tag, with the source's message text. -/
def get_version_handler (file_type : String) : Except String VersionHandlerKind :=
  if file_type = "python" then .ok .python
  else if file_type = "toml" then .ok .toml
  else if file_type = "yaml" then .ok .yaml
  else if file_type = "json" then .ok .json
  else if file_type = "xml" then .ok .xml
  else if file_type = "dockerfile" then .ok .dockerfile
  else if file_type = "makefile" then .ok .makefile
  else if file_type = "properties" then .ok .properties
  else if file_type = "env" then .ok .env
  else if file_type = "setup.cfg" then .ok .setupCfg
  else .error ("Unsupported file type: " ++ file_type)

/-- One entry of the `file_configs` list consumed by
`update_version_in_files` (the `variable` key is named `var` here because
`variable` is reserved in Lean). -/
structure FileConfig where
  path : String
  file_type : String
  var : String
  directive : String
  version_standard : String
deriving DecidableEq

/-- `update_version_in_files` (handlers.py lines 1179-1227).  The external
write capability `handler.update_version(...)` is abstracted as the `upd`
argument (handler, configuration, new version, returning success).  The
handler lookup is not guarded by any `try`, so an unsupported file type
raises out of the loop: this is modelled by the `Except` result, which
carries the error instead of a list of updated paths.  A successful pass
collects, in configuration order, the paths whose update returned true. -/
def update_version_in_files (upd : VersionHandlerKind → FileConfig → String → Bool)
    (new_version : String) : List FileConfig → Except String (List String)
  | [] => .ok []
  | fc :: rest =>
    match get_version_handler fc.file_type with
    | .error e => .error e
    | .ok h =>
      let ok := upd h fc new_version
      match update_version_in_files upd new_version rest with
      | .error e => .error e
      | .ok tl => .ok (if ok then fc.path :: tl else tl)

/-- The success of one configuration's update in a pass of
`update_version_in_files`: the handler exists and its update returned true. -/
def updateSucceeds (upd : VersionHandlerKind → FileConfig → String → Bool)
    (new_version : String) (fc : FileConfig) : Bool :=
  match get_version_handler fc.file_type with
  | .ok h => upd h fc new_version
  | .error _ => false

/-! ### Helper lemmas -/

/-- The hyphen/underscore-to-dot replacement is pointwise idempotent. -/
theorem pep440Replace_idem (c : Char) : pep440Replace (pep440Replace c) = pep440Replace c := by
  by_cases h : c = '-' ∨ c = '_' <;> simp [pep440Replace, h]

/-- `stripZeros` only deletes zeros, so a character map that fixes every
input character (and `'0'`) fixes its output. -/
theorem stripZeros_map_fixed (R : Char → Char) (h0 : R '0' = '0') :
    ∀ (cs : List Char) (b r : Bool), (∀ c ∈ cs, R c = c) →
      (stripZeros b r cs).map R = stripZeros b r cs := by
  intro cs
  induction cs with
  | nil => intro b r _; cases r <;> simp [stripZeros, h0]
  | cons c rest ih =>
    intro b r hfix
    have hc : R c = c := hfix c (List.mem_cons_self c rest)
    have hrest : ∀ x ∈ rest, R x = x := fun x hx => hfix x (List.mem_cons_of_mem c hx)
    cases r with
    | true =>
      by_cases h1 : c = '0'
      · simp [stripZeros, h1, ih true true hrest]
      · by_cases h2 : c.isDigit = true
        · simp [stripZeros, h1, h2, hc, ih true false hrest]
        · simp [stripZeros, h1, h2, hc, h0, ih (isWordChar c) false hrest]
    | false =>
      by_cases h1 : b = false ∧ c = '0'
      · simp [stripZeros, h1, ih true true hrest]
      · simp [stripZeros, h1, hc, ih (isWordChar c) false hrest]

/-- Step lemma: outside a zero run, a character that does not open a
boundary-anchored zero run is emitted unchanged. -/
theorem stripZeros_step_normal (b : Bool) (c : Char) (l : List Char)
    (h : ¬(b = false ∧ c = '0')) :
    stripZeros b false (c :: l) = c :: stripZeros (isWordChar c) false l := by
  simp [stripZeros, h]

/-- Step lemma: at a word boundary a zero opens a zero run. -/
theorem stripZeros_step_enter (c : Char) (l : List Char) (h : c = '0') :
    stripZeros false false (c :: l) = stripZeros true true l := by
  subst h; simp [stripZeros]

/-- Step lemma: a further zero extends the current zero run. -/
theorem stripZeros_step_run_zero (b : Bool) (c : Char) (l : List Char) (h : c = '0') :
    stripZeros b true (c :: l) = stripZeros true true l := by
  subst h; simp [stripZeros]

/-- Step lemma: a nonzero digit ends the zero run and replaces it. -/
theorem stripZeros_step_run_digit (b : Bool) (c : Char) (l : List Char)
    (h1 : ¬c = '0') (h2 : c.isDigit = true) :
    stripZeros b true (c :: l) = c :: stripZeros true false l := by
  simp [stripZeros, h1, h2]

/-- Step lemma: a non-digit ends the zero run, which collapses to one zero. -/
theorem stripZeros_step_run_other (b : Bool) (c : Char) (l : List Char)
    (h2 : c.isDigit = false) :
    stripZeros b true (c :: l) = '0' :: c :: stripZeros (isWordChar c) false l := by
  have h1 : ¬c = '0' := by rintro rfl; simp at h2
  simp [stripZeros, h1, h2]

/-- Running the zero-stripping scan a second time changes nothing.  The
statement pairs the main claim (for a scan starting outside a zero run at
an arbitrary boundary state) with the variant needed when the first scan
is consuming a zero run. -/
theorem stripZeros_second_pass :
    ∀ cs : List Char,
      (∀ b, stripZeros b false (stripZeros b false cs) = stripZeros b false cs) ∧
      stripZeros false false (stripZeros true true cs) = stripZeros true true cs := by
  intro cs
  induction cs with
  | nil =>
    constructor
    · intro b; simp [stripZeros]
    · simp [stripZeros]
  | cons c rest ih =>
    obtain ⟨ihG, ihA⟩ := ih
    constructor
    · intro b
      by_cases h1 : b = false ∧ c = '0'
      · obtain ⟨hb, hc⟩ := h1
        subst hb
        rw [stripZeros_step_enter c rest hc, ihA]
      · rw [stripZeros_step_normal b c rest h1,
            stripZeros_step_normal b c _ h1, ihG (isWordChar c)]
    · by_cases h1 : c = '0'
      · rw [stripZeros_step_run_zero true c rest h1, ihA]
      · by_cases h2 : c.isDigit = true
        · have hw : isWordChar c = true := by
            simp [isWordChar, Char.isAlphanum, h2]
          rw [stripZeros_step_run_digit true c rest h1 h2,
              stripZeros_step_normal false c _ (by simp [h1]), hw, ihG true]
        · have h2' : c.isDigit = false := by simpa using h2
          rw [stripZeros_step_run_other true c rest h2',
              stripZeros_step_enter '0' _ rfl,
              stripZeros_step_run_other true c _ h2', ihG (isWordChar c)]

/-- With no format arguments, `parse_version` is exactly the legacy parse. -/
theorem parse_version_no_format (s : String) :
    parse_version s none none = legacyParseL s.data := rfl

/-- The legacy date pattern cannot match when the first character is not a
digit. -/
theorem legacyDecomp_cons_none (c : Char) (t : List Char) (hc : c.isDigit = false) :
    legacyDecomp (c :: t) = none := by
  unfold legacyDecomp
  split
  · next y1 y2 y3 y4 m1 m2 d1 d2 rest heq =>
    obtain ⟨rfl, -⟩ : c = y1 ∧ t = y2 :: y3 :: y4 :: '-' :: m1 :: m2 :: '-' :: d1 :: d2 :: rest := by
      injection heq with h1 h2; exact ⟨h1, h2⟩
    simp [hc]
  · rfl

/-- Dissection of a successful `startsWithS`-style prefix test. -/
theorem startsL_cons_dest (a : Char) (as l : List Char) (h : startsL (a :: as) l = true) :
    ∃ t, l = a :: t ∧ startsL as t = true := by
  cases l with
  | nil => simp [startsL] at h
  | cons b bs =>
    simp only [startsL, Bool.and_eq_true, beq_iff_eq] at h
    exact ⟨bs, by rw [h.1], h.2⟩

/-- Stripping a pre-release suffix only shortens the string from the right:
the result is a prefix of the input. -/
theorem stripPrerelease_isPrefix (s : String) : (stripPrerelease s).data <+: s.data := by
  unfold stripPrerelease
  split
  · exact List.take_prefix _ _
  · split
    · exact List.take_prefix _ _
    · simp only
      split
      · have h1 : (s.data.reverse.dropWhile Char.isDigit).drop 3 <:+ s.data.reverse :=
          (List.drop_suffix _ _).trans (List.dropWhile_suffix _)
        have h2 := List.reverse_prefix.mpr h1
        rwa [List.reverse_reverse] at h2
      · exact List.prefix_refl _

/-- The digits-then-separator test fails on the empty string and on any
string whose first character is not a digit. -/
theorem startsDigitsSep_false (l : List Char)
    (h : l = [] ∨ ∃ c t, l = c :: t ∧ c.isDigit = false) : startsDigitsSep l = false := by
  rcases h with rfl | ⟨c, t, rfl, hc⟩
  · rfl
  · simp [startsDigitsSep, List.takeWhile, hc]

/-- `get_version_handler` rejects every tag outside the supported ten with
the source's `ValueError` message. -/
theorem get_version_handler_unsupported (ft : String) (h : ft ∉ supported_file_types) :
    get_version_handler ft = Except.error ("Unsupported file type: " ++ ft) := by
  simp only [supported_file_types, List.mem_cons, List.mem_singleton, not_or] at h
  obtain ⟨h1, h2, h3, h4, h5, h6, h7, h8, h9, h10⟩ := h
  simp [get_version_handler, h1, h2, h3, h4, h5, h6, h7, h8, h9, h10]

/-! ### Claim theorems -/

/-- C1: for every configuration whose handler read succeeds and whose
version string parses, `get_build_version` renders the template with build
count `parsed_count + 1` when the parsed date equals the current date and
`1` when it differs; when parsing returns none the count is `1`; and in the
concrete scenario with existing version `2023-10-11-1`, template
`{current_date}-{build_count}` and current date `2023-10-11` the result is
`2023-10-11-2`. -/
theorem C1_resolver_build_count :
    (∀ (version vf df cd d : String) (n : Int),
      parse_version version (some vf) (some df) = some (d, n) →
      get_build_version (.ok (some version)) vf cd df =
        pyFormat vf cd (if d = cd then n + 1 else 1)) ∧
    (∀ version vf df cd : String,
      parse_version version (some vf) (some df) = none →
      get_build_version (.ok (some version)) vf cd df = pyFormat vf cd 1) ∧
    get_build_version (.ok (some "2023-10-11-1"))
      "\x7bcurrent_date\x7d-\x7bbuild_count\x7d" "2023-10-11" "%Y-%m-%d" = "2023-10-11-2" := by
  refine ⟨?_, ?_, by decide⟩
  · intro version vf df cd d n h
    simp [get_build_version, h]
  · intro version vf df cd h
    simp [get_build_version, h]

/-- Witness for C1 at the concrete scenario of the claim. -/
theorem C1_resolver_build_count_witness :
    get_build_version (.ok (some "2023-10-11-1"))
      "\x7bcurrent_date\x7d-\x7bbuild_count\x7d" "2023-10-11" "%Y-%m-%d" =
      pyFormat "\x7bcurrent_date\x7d-\x7bbuild_count\x7d" "2023-10-11"
        (if "2023-10-11" = "2023-10-11" then 1 + 1 else 1) :=
  C1_resolver_build_count.1 "2023-10-11-1" "\x7bcurrent_date\x7d-\x7bbuild_count\x7d"
    "%Y-%m-%d" "2023-10-11" "2023-10-11" 1 (by decide)

/-- C5: a handler read that raises or reports no version never propagates:
`get_build_version` renders the template with build count 1 in both
cases. -/
theorem C5_read_failure_count_one (e vf cd df : String) :
    get_build_version (.error e) vf cd df = pyFormat vf cd 1 ∧
    get_build_version (.ok none) vf cd df = pyFormat vf cd 1 :=
  ⟨rfl, rfl⟩

/-- C6: every version string beginning with `v` or `release` is rejected by
`parse_version` (whatever the format arguments are, which covers every
truthy format pair), and in particular `v1.0.0` parses to none. -/
theorem C6_noncalendar_rejected :
    (∀ (version : String) (vfo dfo : Option String),
      (startsWithS version "v" || startsWithS version "release") = true →
      parse_version version vfo dfo = none) ∧
    parse_version "v1.0.0" (some "\x7bcurrent_date\x7d.\x7bbuild_count:03\x7d")
      (some "%y.Q%q") = none := by
  refine ⟨?_, by decide⟩
  intro version vfo dfo h
  unfold parse_version
  by_cases htr : (truthy vfo && truthy dfo) = true
  · rw [if_pos htr, if_pos h]
  · rw [if_neg htr]
    rcases (Bool.or_eq_true _ _).mp h with hv | hr
    · obtain ⟨t, ht, -⟩ := startsL_cons_dest 'v' [] version.data hv
      rw [ht]
      simp [legacyParseL, legacyDecomp_cons_none 'v' t (by decide)]
    · obtain ⟨t, ht, -⟩ := startsL_cons_dest 'r' "elease".data version.data hr
      rw [ht]
      simp [legacyParseL, legacyDecomp_cons_none 'r' t (by decide)]

/-- Witness for C6: the guard applied to the concrete SemVer-style string. -/
theorem C6_noncalendar_rejected_witness :
    parse_version "v1.0.0" (some "%Y.%m.%d") (some "%Y.%m.%d") = none :=
  C6_noncalendar_rejected.1 "v1.0.0" (some "%Y.%m.%d") (some "%Y.%m.%d") (by decide)

/-- C7: the PEP440-style normalization of `format_version` is idempotent for
the `python` standard, and every other standard is passed through
unchanged. -/
theorem C7_format_version_idempotent (v std : String) :
    format_version (format_version v "python") "python" = format_version v "python" ∧
    (std ≠ "python" → format_version v std = v) := by
  constructor
  · have key : ∀ w : String,
        format_pep440_version (format_pep440_version w) = format_pep440_version w := by
      intro w
      show String.mk (stripZeros false false
        ((stripZeros false false (w.data.map pep440Replace)).map pep440Replace)) = _
      have hfix : ∀ c ∈ w.data.map pep440Replace, pep440Replace c = c := by
        intro c hc
        obtain ⟨x, -, rfl⟩ := List.mem_map.mp hc
        exact pep440Replace_idem x
      rw [stripZeros_map_fixed pep440Replace (by decide) _ false false hfix]
      exact congrArg String.mk ((stripZeros_second_pass (w.data.map pep440Replace)).1 false)
    simp [format_version, key]
  · intro h
    simp [format_version, h]

/-- Witness for C7 at a concrete version string and non-Python standard. -/
theorem C7_format_version_idempotent_witness :
    format_version (format_version "2024-01_05" "python") "python" =
      format_version "2024-01_05" "python" ∧
    format_version "2024-01_05" "json" = "2024-01_05" :=
  ⟨(C7_format_version_idempotent "2024-01_05" "json").1,
   (C7_format_version_idempotent "2024-01_05" "json").2 (by decide)⟩

/-- C2: with no format arguments `parse_version` is the legacy parse; every
version of the shape `YYYY-MM-DD` yields that exact date with count 0,
every version of the shape `YYYY-MM-DD-NNN` yields that date and the value
of `NNN`, and every string the legacy pattern does not match at all yields
none.  As in the source's `re.match`, the pattern is anchored only at the
start of the string. -/
theorem C2_legacy_pattern :
    (∀ s : String, parse_version s none none = legacyParseL s.data) ∧
    (∀ y1 y2 y3 y4 m1 m2 d1 d2 : Char,
      [y1, y2, y3, y4, m1, m2, d1, d2].all Char.isDigit = true →
      parse_version (String.mk [y1, y2, y3, y4, '-', m1, m2, '-', d1, d2]) none none =
        some (String.mk [y1, y2, y3, y4, '-', m1, m2, '-', d1, d2], 0)) ∧
    (∀ (y1 y2 y3 y4 m1 m2 d1 d2 : Char) (ds : List Char),
      [y1, y2, y3, y4, m1, m2, d1, d2].all Char.isDigit = true →
      ds ≠ [] → (∀ c ∈ ds, c.isDigit = true) →
      parse_version (String.mk ([y1, y2, y3, y4, '-', m1, m2, '-', d1, d2] ++ '-' :: ds))
        none none =
        some (String.mk [y1, y2, y3, y4, '-', m1, m2, '-', d1, d2], (digitsVal ds : Int))) ∧
    (∀ s : String, hasLegacyPrefix s = false → parse_version s none none = none) := by
  refine ⟨fun s => rfl, ?_, ?_, ?_⟩
  · intro y1 y2 y3 y4 m1 m2 d1 d2 hAll
    simp only [List.all_cons, List.all_nil, Bool.and_eq_true, Bool.and_true] at hAll
    obtain ⟨h1, h2, h3, h4, h5, h6, h7, h8⟩ := hAll
    rw [parse_version_no_format]
    simp [legacyParseL, legacyDecomp, h1, h2, h3, h4, h5, h6, h7, h8]
  · intro y1 y2 y3 y4 m1 m2 d1 d2 ds hAll hne hds
    simp only [List.all_cons, List.all_nil, Bool.and_eq_true, Bool.and_true] at hAll
    obtain ⟨h1, h2, h3, h4, h5, h6, h7, h8⟩ := hAll
    have htw : ds.takeWhile Char.isDigit = ds := List.takeWhile_eq_self_iff.mpr hds
    have hemp : ds.isEmpty = false := by
      cases ds with
      | nil => exact absurd rfl hne
      | cons _ _ => rfl
    rw [parse_version_no_format]
    simp [legacyParseL, legacyDecomp, h1, h2, h3, h4, h5, h6, h7, h8, htw, hemp]
  · intro s h
    have hd : legacyDecomp s.data = none := by
      cases heq : legacyDecomp s.data with
      | none => rfl
      | some p => simp [hasLegacyPrefix, heq] at h
    rw [parse_version_no_format]
    simp [legacyParseL, hd]

/-- Witness for C2 at `2023-10-11-7`. -/
theorem C2_legacy_pattern_witness :
    parse_version (String.mk (['2', '0', '2', '3', '-', '1', '0', '-', '1', '1'] ++ '-' :: ['7']))
      none none =
      some (String.mk ['2', '0', '2', '3', '-', '1', '0', '-', '1', '1'], (digitsVal ['7'] : Int)) :=
  C2_legacy_pattern.2.2.1 '2' '0' '2' '3' '1' '0' '1' '1' ['7']
    (by decide) (by decide) (by decide)

/-- C8: under a truthy format pair whose version format contains the date
placeholder but no build-count placeholder, `parse_version` returns the
whole suffix-stripped string as the date with count 0 exactly when that
string begins with digits followed by `.`, `-` or `/`, and none
otherwise.  (A `v`/`release` version is rejected by the earlier guard, and
consistently falls in the `none` branch here because its first character
is not a digit.) -/
theorem C8_date_only_format (version vf df : String)
    (hvf : vf ≠ "") (hdf : df ≠ "")
    (hcd : strContains vf "\x7bcurrent_date\x7d" = true)
    (hbc : strContains vf "\x7bbuild_count" = false) :
    parse_version version (some vf) (some df) =
      (if startsDigitsSep (stripPrerelease version).data then
        some (stripPrerelease version, 0) else none) := by
  have htr : (truthy (some vf) && truthy (some df)) = true := by
    simp [truthy, hvf, hdf]
  unfold parse_version
  rw [if_pos htr]
  by_cases hg : (startsWithS version "v" || startsWithS version "release") = true
  · rw [if_pos hg]
    have hpre := stripPrerelease_isPrefix version
    have hfalse : startsDigitsSep (stripPrerelease version).data = false := by
      have hhead : ∀ c t, version.data = c :: t → c.isDigit = false →
          startsDigitsSep (stripPrerelease version).data = false := by
        intro c t ht hc
        rw [ht] at hpre
        apply startsDigitsSep_false
        rcases hpre with ⟨r, hr2⟩
        cases hx : (stripPrerelease version).data with
        | nil => exact Or.inl rfl
        | cons x xs =>
          right
          rw [hx] at hr2
          injection hr2 with hxc hrest
          exact ⟨x, xs, rfl, by rw [hxc]; exact hc⟩
      rcases (Bool.or_eq_true _ _).mp hg with hv | hr
      · obtain ⟨t, ht, -⟩ := startsL_cons_dest 'v' [] version.data hv
        exact hhead 'v' t ht (by decide)
      · obtain ⟨t, ht, -⟩ := startsL_cons_dest 'r' "elease".data version.data hr
        exact hhead 'r' t ht (by decide)
    rw [hfalse]
    simp
  · rw [if_neg hg]
    simp only [Option.getD_some]
    have hd : dynamicParse (stripPrerelease version) vf =
        some (if startsDigitsSep (stripPrerelease version).data then
          some (stripPrerelease version, 0) else none) := by
      unfold dynamicParse
      rw [if_neg (by simp [hcd]), if_pos hbc]
    rw [hd]

/-- Witness for C8. -/
theorem C8_date_only_format_witness :
    parse_version "2023-10-11" (some "\x7bcurrent_date\x7d") (some "%Y-%m-%d") =
      (if startsDigitsSep (stripPrerelease "2023-10-11").data then
        some (stripPrerelease "2023-10-11", 0) else none) :=
  C8_date_only_format "2023-10-11" "\x7bcurrent_date\x7d" "%Y-%m-%d"
    (by decide) (by decide) (by decide) (by decide)

/-- C4: under a truthy, dot-separated format pair with both placeholders,
a version whose dot-split (after suffix stripping) is compatible with the
format's arity parses as follows: with at least three segments the first
two joined by a dot are the date and the third is the count, provided the
first segment is a 2-4 digit numeral and the count segment is numeric;
with exactly two segments the first is the date and the second the count,
provided the first starts with two digits; and concretely
`25.Q4.001` under `{current_date}.{build_count:03}` / `%y.Q%q` parses to
`("25.Q4", 1)`. -/
theorem C4_dot_format_segments :
    (∀ (version vf df : String) (a b c : List Char) (restSegs : List (List Char)) (n : Int),
      vf ≠ "" → df ≠ "" →
      (startsWithS version "v" || startsWithS version "release") = false →
      strContains vf "\x7bcurrent_date\x7d" = true →
      strContains vf "\x7bbuild_count" = true →
      strContains vf "." = true →
      splitOnC '.' (stripPrerelease version).data = a :: b :: c :: restSegs →
      (splitOnC '.' vf.data).length ≤ (a :: b :: c :: restSegs).length →
      isDigits24Full a = true →
      pyInt (String.mk c) = some n →
      parse_version version (some vf) (some df) =
        some (String.mk a ++ "." ++ String.mk b, n)) ∧
    (∀ (version vf df : String) (a b : List Char) (n : Int),
      vf ≠ "" → df ≠ "" →
      (startsWithS version "v" || startsWithS version "release") = false →
      strContains vf "\x7bcurrent_date\x7d" = true →
      strContains vf "\x7bbuild_count" = true →
      strContains vf "." = true →
      splitOnC '.' (stripPrerelease version).data = [a, b] →
      (splitOnC '.' vf.data).length ≤ 2 →
      startsDigits24 a = true →
      pyInt (String.mk b) = some n →
      parse_version version (some vf) (some df) = some (String.mk a, n)) ∧
    parse_version "25.Q4.001" (some "\x7bcurrent_date\x7d.\x7bbuild_count:03\x7d")
      (some "%y.Q%q") = some ("25.Q4", 1) := by
  refine ⟨?_, ?_, by decide⟩
  · intro version vf df a b c restSegs n hvf hdf hg hcd hbc hdot hsplit hlen hdig hint
    have htr : (truthy (some vf) && truthy (some df)) = true := by
      simp [truthy, hvf, hdf]
    unfold parse_version
    rw [if_pos htr, if_neg (by simp [hg])]
    simp only [Option.getD_some]
    have hd : dynamicParse (stripPrerelease version) vf =
        some (some (String.mk a ++ "." ++ String.mk b, n)) := by
      unfold dynamicParse
      rw [if_neg (by simp [hcd]), if_neg (by simp [hbc]), if_neg (by simp [hdot])]
      simp only [hsplit]
      rw [if_neg (Nat.not_lt.mpr hlen)]
      simp [hdig, hint]
    rw [hd]
  · intro version vf df a b n hvf hdf hg hcd hbc hdot hsplit hlen hdig hint
    have htr : (truthy (some vf) && truthy (some df)) = true := by
      simp [truthy, hvf, hdf]
    unfold parse_version
    rw [if_pos htr, if_neg (by simp [hg])]
    simp only [Option.getD_some]
    have hd : dynamicParse (stripPrerelease version) vf = some (some (String.mk a, n)) := by
      unfold dynamicParse
      rw [if_neg (by simp [hcd]), if_neg (by simp [hbc]), if_neg (by simp [hdot])]
      simp only [hsplit]
      rw [if_neg (show ¬ [a, b].length < (splitOnC '.' vf.data).length by simp; omega)]
      simp [hdig, hint]
    rw [hd]

/-- Witness for C4 applying the three-segment case to `25.Q4.001`. -/
theorem C4_dot_format_segments_witness :
    parse_version "25.Q4.001" (some "\x7bcurrent_date\x7d.\x7bbuild_count:03\x7d")
      (some "%y.Q%q") =
      some (String.mk ['2', '5'] ++ "." ++ String.mk ['Q', '4'], 1) :=
  C4_dot_format_segments.1 "25.Q4.001" "\x7bcurrent_date\x7d.\x7bbuild_count:03\x7d"
    "%y.Q%q" ['2', '5'] ['Q', '4'] ['0', '0', '1'] [] 1
    (by decide) (by decide) (by decide) (by decide) (by decide) (by decide)
    (by decide) (by decide) (by decide) (by decide)

/-- C3 counterexample: with the dot-separated format
`{current_date}.{build_count}` and the version `2023-10-11.abc`, the
designated build-count segment `abc` is not numeric, yet `parse_version`
does not return none: the raised `ValueError` is caught and the string is
re-parsed with the legacy pattern, which matches its `2023-10-11`
prefix. -/
theorem C3_counterexample :
    parse_version "2023-10-11.abc" (some "\x7bcurrent_date\x7d.\x7bbuild_count\x7d")
      (some "%Y-%m-%d") = some ("2023-10-11", 0) ∧
    ¬ parse_version "2023-10-11.abc" (some "\x7bcurrent_date\x7d.\x7bbuild_count\x7d")
      (some "%Y-%m-%d") = none := by
  exact ⟨by decide, by decide⟩

/-- C3 as amended: a non-numeric build-count segment makes the dynamic
parse raise inside the `try`; the exception is caught (never propagated)
and `parse_version` falls back to the legacy `YYYY-MM-DD` prefix pattern
on the original string, returning none exactly when that pattern does not
match.  Both dot-split shapes are covered. -/
theorem C3_nonnumeric_count_fallback :
    (∀ (version vf df : String) (a b c : List Char) (restSegs : List (List Char)),
      vf ≠ "" → df ≠ "" →
      (startsWithS version "v" || startsWithS version "release") = false →
      strContains vf "\x7bcurrent_date\x7d" = true →
      strContains vf "\x7bbuild_count" = true →
      strContains vf "." = true →
      splitOnC '.' (stripPrerelease version).data = a :: b :: c :: restSegs →
      (splitOnC '.' vf.data).length ≤ (a :: b :: c :: restSegs).length →
      isDigits24Full a = true →
      pyInt (String.mk c) = none →
      parse_version version (some vf) (some df) = legacyParseL version.data) ∧
    (∀ (version vf df : String) (a b : List Char),
      vf ≠ "" → df ≠ "" →
      (startsWithS version "v" || startsWithS version "release") = false →
      strContains vf "\x7bcurrent_date\x7d" = true →
      strContains vf "\x7bbuild_count" = true →
      strContains vf "." = true →
      splitOnC '.' (stripPrerelease version).data = [a, b] →
      (splitOnC '.' vf.data).length ≤ 2 →
      startsDigits24 a = true →
      pyInt (String.mk b) = none →
      parse_version version (some vf) (some df) = legacyParseL version.data) := by
  constructor
  · intro version vf df a b c restSegs hvf hdf hg hcd hbc hdot hsplit hlen hdig hint
    have htr : (truthy (some vf) && truthy (some df)) = true := by
      simp [truthy, hvf, hdf]
    unfold parse_version
    rw [if_pos htr, if_neg (by simp [hg])]
    simp only [Option.getD_some]
    have hd : dynamicParse (stripPrerelease version) vf = none := by
      unfold dynamicParse
      rw [if_neg (by simp [hcd]), if_neg (by simp [hbc]), if_neg (by simp [hdot])]
      simp only [hsplit]
      rw [if_neg (Nat.not_lt.mpr hlen)]
      simp [hdig, hint]
    rw [hd]
  · intro version vf df a b hvf hdf hg hcd hbc hdot hsplit hlen hdig hint
    have htr : (truthy (some vf) && truthy (some df)) = true := by
      simp [truthy, hvf, hdf]
    unfold parse_version
    rw [if_pos htr, if_neg (by simp [hg])]
    simp only [Option.getD_some]
    have hd : dynamicParse (stripPrerelease version) vf = none := by
      unfold dynamicParse
      rw [if_neg (by simp [hcd]), if_neg (by simp [hbc]), if_neg (by simp [hdot])]
      simp only [hsplit]
      rw [if_neg (show ¬ [a, b].length < (splitOnC '.' vf.data).length by simp; omega)]
      simp [hdig, hint]
    rw [hd]

/-- Witness for the amended C3 at the counterexample's input. -/
theorem C3_nonnumeric_count_fallback_witness :
    parse_version "2023-10-11.abc" (some "\x7bcurrent_date\x7d.\x7bbuild_count\x7d")
      (some "%Y-%m-%d") = legacyParseL "2023-10-11.abc".data :=
  C3_nonnumeric_count_fallback.2 "2023-10-11.abc" "\x7bcurrent_date\x7d.\x7bbuild_count\x7d"
    "%Y-%m-%d" ['2', '0', '2', '3', '-', '1', '0', '-', '1', '1'] ['a', 'b', 'c']
    (by decide) (by decide) (by decide) (by decide) (by decide) (by decide)
    (by decide) (by decide) (by decide) (by decide)

/-- C9: when every configuration in the batch has a supported file type,
`update_version_in_files` processes the whole list - a failed update
excludes that file's path but does not stop the batch - and returns
exactly the paths whose update succeeded, in configuration order. -/
theorem C9_update_collects_successes
    (upd : VersionHandlerKind → FileConfig → String → Bool) (nv : String)
    (configs : List FileConfig)
    (hsup : ∀ fc ∈ configs, ∃ k, get_version_handler fc.file_type = Except.ok k) :
    update_version_in_files upd nv configs =
      Except.ok ((configs.filter (updateSucceeds upd nv)).map FileConfig.path) := by
  induction configs with
  | nil => rfl
  | cons fc rest ih =>
    obtain ⟨k, hk⟩ := hsup fc (List.mem_cons_self fc rest)
    have hrest : ∀ fc' ∈ rest, ∃ k, get_version_handler fc'.file_type = Except.ok k :=
      fun fc' hm => hsup fc' (List.mem_cons_of_mem fc hm)
    have hsucc : updateSucceeds upd nv fc = upd k fc nv := by
      simp [updateSucceeds, hk]
    simp only [update_version_in_files, hk, ih hrest, List.filter_cons, hsucc]
    cases hres : upd k fc nv <;> simp

/-- Witness for C9: a three-file batch whose middle update fails yields
exactly the other two paths. -/
theorem C9_update_collects_successes_witness :
    update_version_in_files (fun _ fc _ => fc.path != "b") "2024.1.5"
      [⟨"a", "python", "v", "", ""⟩, ⟨"b", "toml", "v", "", ""⟩, ⟨"c", "json", "v", "", ""⟩] =
      Except.ok
        (([⟨"a", "python", "v", "", ""⟩, ⟨"b", "toml", "v", "", ""⟩,
           ⟨"c", "json", "v", "", ""⟩].filter
            (updateSucceeds (fun _ fc _ => fc.path != "b") "2024.1.5")).map FileConfig.path) :=
  C9_update_collects_successes (fun _ fc _ => fc.path != "b") "2024.1.5"
    [⟨"a", "python", "v", "", ""⟩, ⟨"b", "toml", "v", "", ""⟩, ⟨"c", "json", "v", "", ""⟩]
    (by intro fc hfc
        fin_cases hfc
        · exact ⟨.python, rfl⟩
        · exact ⟨.toml, rfl⟩
        · exact ⟨.json, rfl⟩)

/-- C10: `get_version_handler` raises `ValueError` for every file type
outside the ten supported tags, and because `update_version_in_files`
calls it without catching, one unsupported file type anywhere in the batch
makes the whole call propagate that error - independently of the update
capability and of the configurations after the bad one, which are never
reached - instead of returning a list. -/
theorem C10_unsupported_type_aborts :
    (∀ ft : String, ft ∉ supported_file_types →
      get_version_handler ft = Except.error ("Unsupported file type: " ++ ft)) ∧
    (∀ (upd : VersionHandlerKind → FileConfig → String → Bool) (nv : String)
      (pre : List FileConfig) (bad : FileConfig) (post : List FileConfig),
      (∀ fc ∈ pre, ∃ k, get_version_handler fc.file_type = Except.ok k) →
      bad.file_type ∉ supported_file_types →
      update_version_in_files upd nv (pre ++ bad :: post) =
        Except.error ("Unsupported file type: " ++ bad.file_type)) := by
  constructor
  · exact get_version_handler_unsupported
  · intro upd nv pre bad post hpre hbad
    induction pre with
    | nil =>
      simp only [List.nil_append, update_version_in_files,
        get_version_handler_unsupported bad.file_type hbad]
    | cons fc rest ih =>
      obtain ⟨k, hk⟩ := hpre fc (List.mem_cons_self fc rest)
      have hrest : ∀ fc' ∈ rest, ∃ k, get_version_handler fc'.file_type = Except.ok k :=
        fun fc' hm => hpre fc' (List.mem_cons_of_mem fc hm)
      simp only [List.cons_append, update_version_in_files, List.append_eq, hk, ih hrest]

/-- Witness for C10: the unsupported tag `csv` in the middle of a batch. -/
theorem C10_unsupported_type_aborts_witness :
    get_version_handler "csv" = Except.error ("Unsupported file type: " ++ "csv") ∧
    update_version_in_files (fun _ _ _ => true) "2024.1.5"
      ([⟨"a", "python", "v", "", ""⟩] ++ ⟨"b", "csv", "v", "", ""⟩ :: [⟨"c", "json", "v", "", ""⟩]) =
      Except.error ("Unsupported file type: " ++ "csv") :=
  ⟨C10_unsupported_type_aborts.1 "csv" (by decide),
   C10_unsupported_type_aborts.2 (fun _ _ _ => true) "2024.1.5"
     [⟨"a", "python", "v", "", ""⟩] ⟨"b", "csv", "v", "", ""⟩ [⟨"c", "json", "v", "", ""⟩]
     (by intro fc hfc
         fin_cases hfc
         exact ⟨.python, rfl⟩)
     (by decide)⟩
